import Mathlib

/-!
Verification development for the form-detection / answer-matching / field-injection
core of the Netherite extension (src/content/FormFieldDetector.ts and
src/content/FieldInjector.ts).  The TypeScript source is shallowly embedded:
pure string manipulation becomes Lean string functions, DOM reads become fields
of an explicit `Element` record, and DOM mutation becomes explicit state passing
over a `DomState`.  JavaScript numbers are modelled as exact rationals (`ℚ`),
faithful for the short decimal literals the code actually compares.
-/

namespace Netherite

/-! ### JavaScript string primitives

Models of `toLowerCase`, `trim`, `includes` and `replace(/\s+/g, ' ')` as used by
the source.  All are ASCII-faithful, which covers every literal the source
compares against. -/

/-- JS `\s` for the ASCII range (space, tab, newline, carriage return,
vertical tab, form feed). -/
def isJsWs (c : Char) : Bool :=
  c = ' ' || c = '\t' || c = '\n' || c = '\r' || c = '\x0b' || c = '\x0c'

/-- ASCII case folding, as `String.prototype.toLowerCase` acts on ASCII. -/
def jsToLowerChar (c : Char) : Char :=
  if 'A' ≤ c ∧ c ≤ 'Z' then Char.ofNat (c.toNat + 32) else c

def jsToLower (s : String) : String :=
  String.mk (s.data.map jsToLowerChar)

def jsTrimList (l : List Char) : List Char :=
  ((l.dropWhile isJsWs).reverse.dropWhile isJsWs).reverse

/-- JS `String.prototype.trim`. -/
def jsTrim (s : String) : String :=
  String.mk (jsTrimList s.data)

/-- JS `hay.includes(needle)`. -/
def strIncludes (hay needle : String) : Bool :=
  hay.data.tails.any (fun t => needle.data.isPrefixOf t)

/-- Replace every run of whitespace by a single space
(JS `replace(/\s+/g, ' ')`); the boolean records whether the previous
character was part of a whitespace run. -/
def collapseWsAux : Bool → List Char → List Char
  | _, [] => []
  | prevWs, c :: cs =>
    if isJsWs c then
      if prevWs then collapseWsAux true cs else ' ' :: collapseWsAux true cs
    else c :: collapseWsAux false cs

/-- Numeric value of a digit string (JS `parseInt` on all-digit input). -/
def digitsToNat (l : List Char) : Nat :=
  l.foldl (fun acc c => acc * 10 + (c.toNat - 48)) 0

/-! ### Data model

An `Element` is the snapshot of one `input`/`textarea`/`select` DOM node: the
attributes and DOM properties the source reads.  `eid` models JavaScript object
identity (the source keys its maps and sets by the `HTMLElement` reference).
Pure DOM traversals that the source performs to gather text — the label-source
waterfall of `FormFieldDetector.findFieldLabel` methods 1/2/4/8 and the
radio-group query plus per-candidate `findRadioLabel` of `FieldInjector` —
are abstracted as precomputed per-element data, since every claim under
verification concerns what the code does with those texts, not how the
document is walked. -/

/-- One `<option>` of a select: its `textContent` (null coerced to `""`) and
its `value`. -/
structure SelectOption where
  text : String
  value : String
deriving DecidableEq, Repr

/-- One radio button of a group as seen by `FieldInjector.injectRadio`:
its identity, the label text resolved by `findRadioLabel` (explicit label /
parent label / following text node / `value` fallback), and its raw `value`. -/
structure RadioCandidate where
  rid : Nat
  label : String
  value : String
deriving DecidableEq, Repr

structure Element where
  eid : Nat := 0
  /-- `tagName`: "INPUT", "TEXTAREA" or "SELECT". -/
  tagName : String := "INPUT"
  /-- The DOM `type` property (canonicalized lowercase type attribute;
  "textarea" for textareas, "select-one" / "select-multiple" for selects). -/
  htmlType : String := "text"
  nameAttr : String := ""
  idAttr : String := ""
  /-- `disabled` property / `hasAttribute('disabled')`. -/
  disabled : Bool := false
  /-- `readOnly` property / `hasAttribute('readonly')`. -/
  readOnly : Bool := false
  /-- Computed style `display: none`. -/
  displayNone : Bool := false
  /-- Computed style `visibility: hidden`. -/
  visibilityHidden : Bool := false
  /-- DOM `maxLength` property of inputs/textareas; `-1` when not declared. -/
  maxLengthProp : Int := -1
  /-- `min` attribute reflected as a string; `""` when absent. -/
  minAttr : String := ""
  /-- `max` attribute reflected as a string; `""` when absent. -/
  maxAttr : String := ""
  multiple : Bool := false
  options : List SelectOption := []
  /-- Result of the radio-group query `input[type="radio"][name=...]` scoped to
  the owning form (or document), with labels resolved per `findRadioLabel`. -/
  radioGroup : List RadioCandidate := []
  /-- `textContent` of a `label[for=id]` element, when one exists. -/
  labelForText : Option String := none
  /-- `textContent` of an ancestor `<label>`, when one exists. -/
  parentLabelText : Option String := none
  ariaLabel : Option String := none
  /-- `textContent` of the element referenced by `aria-labelledby`. -/
  ariaLabelledByText : Option String := none
  titleAttr : String := ""
  placeholderAttr : String := ""
  patternAttr : String := ""
  requiredAttr : Bool := false
  ariaRequired : Bool := false
  /-- Text found by `findNearbyText` (previous siblings / short parent text). -/
  nearbyText : Option String := none
deriving DecidableEq, Repr

/-- `DetectedFormField` of src/types/language-model.d.ts. -/
structure DetectedFormField where
  element : Element
  label : String
  type : String
  required : Bool := false
  placeholder : Option String := none
  maxLength : Option Nat := none
deriving DecidableEq, Repr

/-- `GeneratedAnswer` of src/types/language-model.d.ts. -/
structure GeneratedAnswer where
  fieldLabel : String
  fieldType : String := ""
  answer : String
  confidence : ℚ := 1
deriving DecidableEq, Repr

/-! ### FormFieldDetector (src/content/FormFieldDetector.ts) -/

/-- `cleanLabelText` (lines 198-204): trim, collapse whitespace, strip
trailing `*` / `:` decoration, trim again. -/
def cleanLabelText (text : String) : String :=
  String.mk (jsTrimList
    ((jsTrimList (collapseWsAux false (jsTrimList text.data))).reverse.dropWhile
      (fun c => c = '*' || c = ':')).reverse)

/-- `formatNameAsLabel` (lines 209-215): `_`/`-` to spaces, split camelCase,
lowercase, capitalize the first character. -/
def formatNameAsLabel (name : String) : String :=
  let spaced := name.data.map (fun c => if c = '_' || c = '-' then ' ' else c)
  let rec camel : List Char → List Char
    | [] => []
    | [c] => [c]
    | a :: b :: rest =>
      if ('a' ≤ a ∧ a ≤ 'z') ∧ ('A' ≤ b ∧ b ≤ 'Z') then a :: ' ' :: camel (b :: rest)
      else a :: camel (b :: rest)
  let lowered := (camel spaced).map jsToLowerChar
  match lowered with
  | [] => ""
  | c :: rest => String.mk (c.toUpper :: rest)

/-- An optional string that is also treated as absent when empty, modelling
JS truthiness checks on possibly-missing text. -/
def nonEmptyOpt (s : Option String) : Option String :=
  match s with
  | some t => if t = "" then none else some t
  | none => none

/-- `findFieldLabel` (lines 140-193): the nine-step label waterfall.  The DOM
queries of methods 1, 2, 4 and 8 are abstracted as the corresponding
`Element` data. -/
def findFieldLabel (e : Element) : String :=
  match nonEmptyOpt e.labelForText with
  | some t => cleanLabelText t
  | none =>
    match nonEmptyOpt e.parentLabelText with
    | some t => cleanLabelText t
    | none =>
      match nonEmptyOpt e.ariaLabel with
      | some t => cleanLabelText t
      | none =>
        match nonEmptyOpt e.ariaLabelledByText with
        | some t => cleanLabelText t
        | none =>
          if e.titleAttr ≠ "" then cleanLabelText e.titleAttr
          else if e.placeholderAttr ≠ "" then cleanLabelText e.placeholderAttr
          else if e.nameAttr ≠ "" then formatNameAsLabel e.nameAttr
          else
            match nonEmptyOpt e.nearbyText with
            | some t => cleanLabelText t
            | none => "Unlabeled field"

/-- The fixed system denylist of `shouldSkipField` (lines 90-94). -/
def skipNames : List String :=
  ["csrf", "token", "_token", "authenticity_token",
   "utf8", "_method", "commit", "submit",
   "captcha", "recaptcha", "g-recaptcha-response"]

/-- `shouldSkipField` (lines 79-110).  The readonly check guards on
`'readOnly' in element`, which holds for inputs and textareas but not
selects. -/
def shouldSkipField (e : Element) : Bool :=
  if e.htmlType = "hidden" then true
  else if e.disabled then true
  else if (e.tagName = "INPUT" ∨ e.tagName = "TEXTAREA") ∧ e.readOnly ∧ e.htmlType ≠ "text" then true
  else if skipNames.any (fun skip =>
      strIncludes (jsToLower e.nameAttr) skip || strIncludes (jsToLower e.idAttr) skip) then true
  else if e.displayNone || e.visibilityHidden then true
  else false

/-- The input-type → semantic-category table of `getFieldType` (lines 267-288). -/
def typeMapping : List (String × String) :=
  [("text", "text"), ("email", "email"), ("password", "password"),
   ("tel", "phone"), ("url", "url"), ("number", "number"), ("range", "range"),
   ("date", "date"), ("datetime-local", "datetime"), ("time", "time"),
   ("month", "month"), ("week", "week"), ("color", "color"), ("file", "file"),
   ("checkbox", "checkbox"), ("radio", "radio"), ("submit", "submit"),
   ("button", "button"), ("reset", "reset"), ("search", "search")]

/-- `getFieldType` (lines 253-291). -/
def getFieldType (e : Element) : String :=
  if e.tagName = "TEXTAREA" then "textarea"
  else if e.tagName = "SELECT" then
    (if e.multiple then "select-multiple" else "select-one")
  else
    let t := jsToLower e.htmlType
    match typeMapping.lookup t with
    | some v => v
    | none => t

/-- `isFieldRequired` (lines 296-314). -/
def isFieldRequired (e : Element) : Bool :=
  if e.requiredAttr then true
  else if e.ariaRequired then true
  else
    let label := findFieldLabel e
    strIncludes label "*" || strIncludes (jsToLower label) "required"

/-- Try to match the regex `\x7b(\d+),?(\d+)?\x7d` at the head of `l`;
on success return `parseInt(group2 || group1)`. -/
def braceHintAt (l : List Char) : Option Nat :=
  match l with
  | c :: rest =>
    if c = '\x7b' then
      let p1 := rest.span (fun d => d.isDigit)
      if p1.1.isEmpty then none
      else
        let r2 := match p1.2 with
          | ',' :: t => t
          | other => other
        let p2 := r2.span (fun d => d.isDigit)
        match p2.2 with
        | '\x7d' :: _ => some (digitsToNat (if p2.1.isEmpty then p1.1 else p2.1))
        | _ => none
    else none
  | [] => none

/-- First match of `\x7b(\d+),?(\d+)?\x7d` anywhere in the string (the
pattern-based length hint of `getMaxLength`, lines 325-332). -/
def patternLengthHint : List Char → Option Nat
  | [] => none
  | c :: rest =>
    match braceHintAt (c :: rest) with
    | some n => some n
    | none => patternLengthHint rest

/-- `getMaxLength` (lines 319-335).  The `maxLength` property exists on inputs
and textareas only; the `pattern` property only on inputs. -/
def getMaxLength (e : Element) : Option Nat :=
  if (e.tagName = "INPUT" ∨ e.tagName = "TEXTAREA") ∧ e.maxLengthProp > 0 then
    some e.maxLengthProp.toNat
  else if e.tagName = "INPUT" ∧ e.patternAttr ≠ "" then
    patternLengthHint e.patternAttr.data
  else none

/-- `extractFieldInfo` (lines 115-135).  `throws` is the environment oracle
saying whether reading this element's metadata raises a DOM exception; the
source catches such an exception and returns `null`. -/
def extractFieldInfo (throws : Element → Bool) (e : Element) : Option DetectedFormField :=
  if throws e then none
  else some
    { element := e
      label := findFieldLabel e
      type := getFieldType e
      required := isFieldRequired e
      placeholder :=
        if e.tagName ≠ "SELECT" ∧ e.placeholderAttr ≠ "" then some e.placeholderAttr else none
      maxLength := getMaxLength e }

/-- `processFieldElement` (lines 60-74): the (0 or 1 element) contribution of
one DOM node to `detectedFields`. -/
def processFieldElement (throws : Element → Bool) (e : Element) : List DetectedFormField :=
  if shouldSkipField e then []
  else
    match extractFieldInfo throws e with
    | some fieldInfo => [fieldInfo]
    | none => []

/-- The per-field loop of `filterAndDeduplicateFields` (lines 340-361), with
`seen` the set of element identities already kept.  A field dropped for its
type is (as in the source) not added to `seen`. -/
def filterDedupAux (seen : List Nat) : List DetectedFormField → List DetectedFormField
  | [] => []
  | f :: rest =>
    if seen.contains f.element.eid then filterDedupAux seen rest
    else if ["submit", "button", "reset", "image"].contains (jsToLower f.type) then
      filterDedupAux seen rest
    else f :: filterDedupAux (f.element.eid :: seen) rest

def filterAndDeduplicateFields (fields : List DetectedFormField) : List DetectedFormField :=
  filterDedupAux [] fields

/-- `detectFields` (lines 15-42), i.e. the spec's `scan()`.  The document is
modelled as the sequence of elements the source visits: each form's controls
in document order, then the standalone controls. -/
def detectFields (throws : Element → Bool) (doc : List Element) : List DetectedFormField :=
  filterAndDeduplicateFields (doc.flatMap (processFieldElement throws))

/-! ### Answer Matcher (FieldInjector.findMatchingField, lines 47-125) -/

/-- `normalizeLabel` (lines 89-95): lowercase, strip everything that is not
`a-z0-9` or whitespace, collapse whitespace runs to single spaces, trim. -/
def normalizeLabel (label : String) : String :=
  String.mk (jsTrimList (collapseWsAux false
    (((jsToLower label).data.filter
      (fun c => ('a' ≤ c ∧ c ≤ 'z') ∨ ('0' ≤ c ∧ c ≤ '9') ∨ isJsWs c)))))

/-- The stop-word list of `extractKeywords` (line 101). -/
def stopWords : List String :=
  ["the", "a", "an", "and", "or", "but", "in", "on", "at", "to", "for",
   "of", "with", "by", "your", "you", "enter", "please"]

/-- `extractKeywords` (lines 100-106): split on single spaces, keep tokens of
length greater than 2 that are not stop-words. -/
def extractKeywords (text : String) : List String :=
  (text.splitOn " ").filter (fun word => word.length > 2 && !stopWords.contains word)

/-- The substring-aware token equality of `calculateMatchScore` (line 117). -/
def tokenMatches (k1 k2 : String) : Bool :=
  k1 = k2 || strIncludes k1 k2 || strIncludes k2 k1

/-- `calculateMatchScore` (lines 111-125): the count of answer keywords having
some matching candidate keyword, divided by the larger keyword count. -/
def calculateMatchScore (keywords1 keywords2 : List String) : ℚ :=
  if keywords1.isEmpty || keywords2.isEmpty then 0
  else
    let matchCount := (keywords1.filter (fun k1 => keywords2.any (fun k2 => tokenMatches k1 k2))).length
    (matchCount : ℚ) / (max keywords1.length keywords2.length : ℚ)

/-- Fuzzy score of one candidate field against the answer keywords. -/
def fieldScore (answerKeywords : List String) (f : DetectedFormField) : ℚ :=
  calculateMatchScore answerKeywords (extractKeywords (normalizeLabel f.label))

/-- The best-score fold of `findMatchingField` (lines 69-81): replace the
current best when this candidate's score strictly exceeds it and exceeds 0.5. -/
def fuzzyBest (answerKeywords : List String) :
    List DetectedFormField → Option DetectedFormField → ℚ → Option DetectedFormField
  | [], bestMatch, _ => bestMatch
  | f :: rest, bestMatch, bestScore =>
    let score := fieldScore answerKeywords f
    if score > bestScore ∧ score > 1/2 then fuzzyBest answerKeywords rest (some f) score
    else fuzzyBest answerKeywords rest bestMatch bestScore

/-- `findMatchingField` (lines 47-84): exact normalized match, then
containment either way, then the fuzzy-score fold. -/
def findMatchingField (answerLabel : String) (formFields : List DetectedFormField) :
    Option DetectedFormField :=
  let nal := normalizeLabel answerLabel
  match formFields.find? (fun f => normalizeLabel f.label = nal) with
  | some f => some f
  | none =>
    match formFields.find? (fun f =>
        strIncludes (normalizeLabel f.label) nal || strIncludes nal (normalizeLabel f.label)) with
    | some f => some f
    | none => fuzzyBest (extractKeywords nal) formFields none 0

/-- Specification-side formulation of the matcher's third step, following the
spec's words: score every candidate, and accept the (first) candidate
attaining the highest score provided that score exceeds 0.5. -/
def bestFuzzyScore (answerKeywords : List String) (formFields : List DetectedFormField) : ℚ :=
  (formFields.map (fieldScore answerKeywords)).foldr max 0

/-- Specification-side formulation of the whole matcher waterfall (spec §4.2):
exact normalized equality, else containment either direction, else the
highest-scoring candidate when its score exceeds 0.5, else no match. -/
def findMatchingFieldSpec (answerLabel : String) (formFields : List DetectedFormField) :
    Option DetectedFormField :=
  let nal := normalizeLabel answerLabel
  match formFields.find? (fun f => normalizeLabel f.label = nal) with
  | some f => some f
  | none =>
    match formFields.find? (fun f =>
        strIncludes (normalizeLabel f.label) nal || strIncludes nal (normalizeLabel f.label)) with
    | some f => some f
    | none =>
      let aks := extractKeywords nal
      let m := bestFuzzyScore aks formFields
      if m > 1/2 then formFields.find? (fun f => fieldScore aks f = m) else none

/-! ### Calendar dates and the JS `Date` model (for FieldInjector.parseDate) -/

structure CalDate where
  year : Nat
  month : Nat
  day : Nat
deriving DecidableEq, Repr

def isLeapYear (y : Nat) : Bool :=
  (y % 4 = 0 ∧ y % 100 ≠ 0) ∨ y % 400 = 0

def daysInMonth (y m : Nat) : Nat :=
  if m = 2 then (if isLeapYear y then 29 else 28)
  else if m = 4 ∨ m = 6 ∨ m = 9 ∨ m = 11 then 30
  else 31

def prevCalDay (d : CalDate) : CalDate :=
  if d.day > 1 then ⟨d.year, d.month, d.day - 1⟩
  else if d.month > 1 then ⟨d.year, d.month - 1, daysInMonth d.year (d.month - 1)⟩
  else ⟨d.year - 1, 12, 31⟩

def pad2 (n : Nat) : String :=
  if n < 10 then "0" ++ toString n else toString n

def pad4 (n : Nat) : String :=
  if n < 10 then "000" ++ toString n
  else if n < 100 then "00" ++ toString n
  else if n < 1000 then "0" ++ toString n
  else toString n

/-- ISO `YYYY-MM-DD` rendering of a calendar date. -/
def formatISODate (d : CalDate) : String :=
  pad4 d.year ++ "-" ++ pad2 d.month ++ "-" ++ pad2 d.day

def monthNames : List (String × Nat) :=
  [("january", 1), ("february", 2), ("march", 3), ("april", 4), ("may", 5),
   ("june", 6), ("july", 7), ("august", 8), ("september", 9), ("october", 10),
   ("november", 11), ("december", 12)]

/-- Recognize an English month name or its three-letter abbreviation
(case-insensitively). -/
def parseMonthName (tok : String) : Option Nat :=
  let t := jsToLower tok
  (monthNames.find? (fun p => p.1 = t ∨ String.mk (p.1.data.take 3) = t)).map (fun p => p.2)

def parseNatToken (tok : String) : Option Nat :=
  if tok.data ≠ [] ∧ tok.data.all (fun c => c.isDigit) then some (digitsToNat tok.data) else none

/-- Model of the JS `new Date(string)` constructor on the textual date-only
formats relevant here: `"D Month YYYY"` and `"Month D YYYY"` (commas allowed,
month written as an English name or three-letter abbreviation).  Such strings
parse (in every major engine) to LOCAL midnight of that calendar date; the
model returns the calendar date, or `none` when the string is not of this
shape (JS `Invalid Date`).  Day-overflow rollover (e.g. "February 31") is not
modelled; no claim exercises it. -/
def jsDateParse (s : String) : Option CalDate :=
  let toks := ((s.data.map (fun c => if c = ',' then ' ' else c)).foldr
      (fun c acc => if isJsWs c then [] :: acc
        else match acc with
          | [] => [[c]]
          | w :: ws => (c :: w) :: ws) [[]]).filter (fun w => w ≠ []) |>.map String.mk
  match toks with
  | [t1, t2, t3] =>
    let viaDMY :=
      match parseNatToken t1, parseMonthName t2, parseNatToken t3 with
      | some d, some m, some y =>
        if 1 ≤ d ∧ d ≤ daysInMonth y m ∧ t3.length = 4 then some (⟨y, m, d⟩ : CalDate) else none
      | _, _, _ => none
    match viaDMY with
    | some dt => some dt
    | none =>
      match parseMonthName t1, parseNatToken t2, parseNatToken t3 with
      | some m, some d, some y =>
        if 1 ≤ d ∧ d ≤ daysInMonth y m ∧ t3.length = 4 then some (⟨y, m, d⟩ : CalDate) else none
      | _, _, _ => none
  | _ => none

/-- Remove the connective words `on|at|in|the|of|by` at word boundaries,
case-insensitively (the regex on line 401).  A word boundary separates a
`[A-Za-z0-9_]` character from a non-word character or the string edge. -/
def isWordChar (c : Char) : Bool :=
  ('a' ≤ c ∧ c ≤ 'z') ∨ ('A' ≤ c ∧ c ≤ 'Z') ∨ ('0' ≤ c ∧ c ≤ '9') ∨ c = '_'

def connectives : List (List Char) :=
  [['o', 'n'], ['a', 't'], ['i', 'n'], ['t', 'h', 'e'], ['o', 'f'], ['b', 'y']]

/-- Does one of the connective words match at the head of `l` with a word
boundary after it?  (`prevIsWord` says the previous character was a word
character, i.e. there is no boundary before `l`.) -/
def connectiveAt (prevIsWord : Bool) (l : List Char) : Option Nat :=
  if prevIsWord then none
  else
    (connectives.find? (fun w =>
      w.isPrefixOf (l.take w.length |>.map jsToLowerChar) &&
      (match l.drop w.length with
       | [] => true
       | c :: _ => !isWordChar c))).map (fun w => w.length)

/-- Structural recursion on fuel (any fuel at least the list length yields the
full scan; each step consumes at least one character). -/
def stripConnectivesAux : Nat → Bool → List Char → List Char
  | 0, _, _ => []
  | _ + 1, _, [] => []
  | fuel + 1, prevIsWord, c :: rest =>
    match connectiveAt prevIsWord (c :: rest) with
    | some n => stripConnectivesAux fuel false (rest.drop (n - 1))
    | none => c :: stripConnectivesAux fuel (isWordChar c) rest

/-- The `replace(connective regex, '')` of line 401. -/
def stripConnectives (s : String) : String :=
  String.mk (stripConnectivesAux s.data.length false s.data)

/-- `parseDate` (lines 398-415), parameterized by the host timezone offset
`tzEastMin` (minutes east of UTC, `|tzEastMin| < 1440`): strip connective
words, trim, parse with `new Date`, and render `toISOString().split('T')[0]`.
`new Date` yields LOCAL midnight, and `toISOString` converts to UTC, so for a
positive (east-of-UTC) offset the rendered date is the PREVIOUS calendar
day. -/
def parseDate (tzEastMin : Int) (dateStr : String) : Option String :=
  let cleaned := jsTrim (stripConnectives dateStr)
  (jsDateParse cleaned).map (fun dt =>
    formatISODate (if tzEastMin > 0 then prevCalDay dt else dt))

/-! ### JS number model (for FieldInjector.injectNumber) -/

/-- First match of the regex `\d+(\.\d+)?` in the string, as a token. -/
def extractNumTokenGo : List Char → Option (List Char)
  | [] => none
  | c :: rest =>
    if c.isDigit then
      let p1 := (c :: rest).span (fun d => d.isDigit)
      some (p1.1 ++
        (match p1.2 with
         | '.' :: r2 =>
           let f := r2.takeWhile (fun d => d.isDigit)
           if f.isEmpty then [] else '.' :: f
         | _ => []))
    else extractNumTokenGo rest

def extractNumberToken (s : String) : Option String :=
  (extractNumTokenGo s.data).map String.mk

/-- Exact rational value of a `\d+(\.\d+)?` token. -/
def decTokenValue (tok : String) : ℚ :=
  match tok.data.span (fun c => c.isDigit) with
  | (ds, '.' :: fs) => (digitsToNat ds : ℚ) + (digitsToNat fs : ℚ) / ((10 : ℚ) ^ fs.length)
  | (ds, _) => (digitsToNat ds : ℚ)

/-- Model of JS `parseFloat` on attribute strings: skip leading whitespace,
optional sign, then the longest `\d*(\.\d*)?` prefix containing at least one
digit; `none` models `NaN`.  Exponent notation is not modelled (no claim uses
it); values are exact rationals, faithful for decimals within double
precision. -/
def jsParseFloat (s : String) : Option ℚ :=
  let l := s.data.dropWhile isJsWs
  let signed : Bool × List Char :=
    match l with
    | '-' :: t => (true, t)
    | '+' :: t => (false, t)
    | _ => (false, l)
  let p1 := signed.2.span (fun c => c.isDigit)
  match p1.2 with
  | '.' :: r2 =>
    let fs := r2.takeWhile (fun c => c.isDigit)
    if p1.1.isEmpty ∧ fs.isEmpty then none
    else
      let v : ℚ := (digitsToNat p1.1 : ℚ) + (digitsToNat fs : ℚ) / ((10 : ℚ) ^ fs.length)
      some (if signed.1 then -v else v)
  | _ =>
    if p1.1.isEmpty then none
    else some (if signed.1 then -(digitsToNat p1.1 : ℚ) else (digitsToNat p1.1 : ℚ))

/-- Model of `Number.prototype.toString` on `parseFloat(tok)` for a
`\d+(\.\d+)?` token: canonical decimal form (leading zeros of the integer part
dropped, trailing zeros of the fraction dropped, bare integer when the
fraction vanishes).  Faithful to the JS shortest round-trip representation
whenever the token is within double precision. -/
def canonDecimalToken (tok : String) : String :=
  match tok.data.span (fun c => c.isDigit) with
  | (ds, rest) =>
    let intPart := ds.dropWhile (fun c => c = '0')
    let intPart := if intPart.isEmpty then ['0'] else intPart
    let fracPart :=
      match rest with
      | '.' :: fs => (fs.reverse.dropWhile (fun c => c = '0')).reverse
      | _ => []
    if fracPart.isEmpty then String.mk intPart
    else String.mk (intPart ++ '.' :: fracPart)

/-! ### DOM state and the Field Writer (FieldInjector, lines 130-488)

The mutable DOM is modelled as a map from element identity to the per-element
state the source writes: `value`, `checked`, the selected option of selects,
and the inline `border` / `boxShadow` styles used for the success highlight.
Event dispatch (`triggerChangeEvents`) and the notification banner
(`showInjectionFeedback`) have no effect on this state and are not modelled;
the 100 ms focus settle delay and the 2-second highlight timer are modelled by
the order in which writes and pending highlight reverts are applied. -/

structure ElemState where
  value : String := ""
  checked : Bool := false
  selectedIndex : Int := -1
  selectedFlags : List Bool := []
  border : String := ""
  boxShadow : String := ""
deriving DecidableEq, Repr

def DomState := Nat → ElemState

def updateDom (d : DomState) (i : Nat) (f : ElemState → ElemState) : DomState :=
  fun j => if j = i then f (d j) else d j

/-- `isElementInteractable` (lines 213-222). -/
def isElementInteractable (e : Element) : Bool :=
  !e.displayNone && !e.visibilityHidden && !e.disabled && !e.readOnly

/-- `injectTextInput` (lines 238-252): truncate to `maxLength` when declared
positive and exceeded, write the value. -/
def injectTextInput (e : Element) (content : String) (d : DomState) : Bool × DomState :=
  let maxLength := e.maxLengthProp
  let finalContent :=
    if maxLength > 0 ∧ (content.length : Int) > maxLength then content.take maxLength.toNat
    else content
  (true, updateDom d e.eid (fun s => { s with value := finalContent }))

/-- `injectTextarea` (lines 257-271): identical truncation rule. -/
def injectTextarea (e : Element) (content : String) (d : DomState) : Bool × DomState :=
  let maxLength := e.maxLengthProp
  let finalContent :=
    if maxLength > 0 ∧ (content.length : Int) > maxLength then content.take maxLength.toNat
    else content
  (true, updateDom d e.eid (fun s => { s with value := finalContent }))

/-- The option test of `injectSelect` (lines 281-291). -/
def selectOptionMatches (normalizedContent : String) (o : SelectOption) : Bool :=
  let optionText := jsTrim (jsToLower o.text)
  let optionValue := jsTrim (jsToLower o.value)
  strIncludes optionText normalizedContent || strIncludes normalizedContent optionText ||
    optionValue = normalizedContent

/-- Index of the first `true` flag, or `-1` (the DOM's `selectedIndex`). -/
def firstTrueIdx (l : List Bool) : Int :=
  match l.findIdx? id with
  | some i => (i : Int)
  | none => -1

/-- Effect of `option.selected = true` on option `i`: a single select
deselects every other option; a multiple select only adds. -/
def applySelectOption (e : Element) (i : Nat) (s : ElemState) : ElemState :=
  if e.multiple then
    let flags := (List.range e.options.length).map
      (fun j => if j = i then true else s.selectedFlags.getD j false)
    { s with selectedFlags := flags, selectedIndex := firstTrueIdx flags }
  else
    { s with selectedFlags := (List.range e.options.length).map (fun j => j = i)
             selectedIndex := (i : Int) }

/-- `injectSelect` (lines 276-300). -/
def injectSelect (e : Element) (content : String) (d : DomState) : Bool × DomState :=
  let normalizedContent := jsTrim (jsToLower content)
  match e.options.findIdx? (selectOptionMatches normalizedContent) with
  | some i => (true, updateDom d e.eid (applySelectOption e i))
  | none => (false, d)

/-- The fixed affirmative vocabulary of `injectCheckbox` (line 308). -/
def affirmativeWords : List String := ["yes", "true", "1", "checked", "on", "agree"]

/-- `injectCheckbox` (lines 305-316): always succeeds, checked iff the
normalized content is affirmative. -/
def injectCheckbox (e : Element) (content : String) (d : DomState) : Bool × DomState :=
  let normalizedContent := jsTrim (jsToLower content)
  (true, updateDom d e.eid (fun s => { s with checked := affirmativeWords.contains normalizedContent }))

/-- The candidate test of `injectRadio` (lines 330-341): resolved label
containment either way, or raw value equality (both case-insensitive; the
value is not trimmed). -/
def radioCandMatches (normalizedContent : String) (c : RadioCandidate) : Bool :=
  let normalizedLabel := jsTrim (jsToLower c.label)
  strIncludes normalizedLabel normalizedContent ||
    strIncludes normalizedContent normalizedLabel ||
    jsToLower c.value = normalizedContent

/-- Checking one radio button of a group unchecks the rest of the group
(native DOM radio exclusivity). -/
def checkRadioInGroup (group : List RadioCandidate) (chosen : Nat) (d : DomState) : DomState :=
  group.foldl (fun acc c => updateDom acc c.rid (fun s => { s with checked := c.rid = chosen })) d

/-- `injectRadio` (lines 321-348). -/
def injectRadio (e : Element) (content : String) (d : DomState) : Bool × DomState :=
  let normalizedContent := jsTrim (jsToLower content)
  match e.radioGroup.find? (radioCandMatches normalizedContent) with
  | some c => (true, checkRadioInGroup e.radioGroup c.rid d)
  | none => (false, d)

/-- `injectDate` (lines 380-393): write the parsed ISO date or fail leaving
the element untouched. -/
def injectDate (tzEastMin : Int) (e : Element) (content : String) (d : DomState) : Bool × DomState :=
  match parseDate tzEastMin content with
  | some dateString => (true, updateDom d e.eid (fun s => { s with value := dateString }))
  | none => (false, d)

/-- `injectNumber` (lines 420-439): extract the first numeric token; fail when
the field declares a parseable `min`/`max` the number violates (an empty
attribute string is falsy and skips the check, an unparseable one compares as
`NaN`, i.e. never violates); otherwise write `number.toString()`. -/
def ltParsed (q : ℚ) (attr : String) : Bool :=
  match jsParseFloat attr with
  | some m => decide (q < m)
  | none => false

def gtParsed (q : ℚ) (attr : String) : Bool :=
  match jsParseFloat attr with
  | some m => decide (q > m)
  | none => false

def injectNumber (e : Element) (content : String) (d : DomState) : Bool × DomState :=
  match extractNumberToken content with
  | none => (false, d)
  | some tok =>
    let number := decTokenValue tok
    if e.minAttr ≠ "" ∧ ltParsed number e.minAttr then (false, d)
    else if e.maxAttr ≠ "" ∧ gtParsed number e.maxAttr then (false, d)
    else (true, updateDom d e.eid (fun s => { s with value := canonDecimalToken tok }))

/-- The type dispatch of `injectSingleField` (lines 149-188). -/
def dispatchInject (tzEastMin : Int) (field : DetectedFormField) (content : String)
    (d : DomState) : Bool × DomState :=
  if field.type = "text" ∨ field.type = "email" ∨ field.type = "password" ∨
      field.type = "phone" ∨ field.type = "url" ∨ field.type = "search" then
    injectTextInput field.element content d
  else if field.type = "textarea" then injectTextarea field.element content d
  else if field.type = "select-one" ∨ field.type = "select-multiple" then
    injectSelect field.element content d
  else if field.type = "checkbox" then injectCheckbox field.element content d
  else if field.type = "radio" then injectRadio field.element content d
  else if field.type = "date" ∨ field.type = "datetime" then
    injectDate tzEastMin field.element content d
  else if field.type = "number" then injectNumber field.element content d
  else (false, d)

/-- The whole injector session state: the DOM, the queue of scheduled
highlight-removal timers (each restoring the border/boxShadow captured when it
was scheduled), and the module's `injectedFields` registry. -/
structure RunState where
  dom : DomState
  pendingReverts : List (Nat × String × String) := []
  injectedFields : List (Element × String) := []

def highlightBorder : String := "2px solid #10b981"

def highlightShadow : String := "0 0 0 3px rgba(16, 185, 129, 0.1)"

/-- `addSuccessHighlight` (lines 470-488): capture the CURRENT inline styles,
apply the success styles, and schedule a timer restoring the captured
styles. -/
def addSuccessHighlight (eid : Nat) (rs : RunState) : RunState :=
  let original := rs.dom eid
  { rs with
    dom := updateDom rs.dom eid
      (fun s => { s with border := highlightBorder, boxShadow := highlightShadow })
    pendingReverts := rs.pendingReverts ++ [(eid, original.border, original.boxShadow)] }

/-- Fire the scheduled highlight-removal timers, oldest first. -/
def applyReverts (rs : RunState) : RunState :=
  { rs with
    dom := rs.pendingReverts.foldl
      (fun d p => updateDom d p.1 (fun s => { s with border := p.2.1, boxShadow := p.2.2 })) rs.dom
    pendingReverts := [] }

/-- `injectSingleField` (lines 130-208): interactability check, type dispatch,
and on success the highlight side effect. -/
def injectSingleField (tzEastMin : Int) (field : DetectedFormField) (content : String)
    (rs : RunState) : Bool × RunState :=
  if !isElementInteractable field.element then (false, rs)
  else
    let r := dispatchInject tzEastMin field content rs.dom
    if r.1 then (true, addSuccessHighlight field.element.eid { rs with dom := r.2 })
    else (false, { rs with dom := r.2 })

/-- JS `Map.set` keyed by element identity: overwrite in place, else append. -/
def setInjected (m : List (Element × String)) (e : Element) (v : String) :
    List (Element × String) :=
  match m with
  | [] => [(e, v)]
  | p :: rest => if p.1.eid = e.eid then (p.1, v) :: rest else p :: setInjected rest e v

/-- The per-answer loop of `injectAnswers` (lines 17-29), threading
`successCount` and `totalAttempts`. -/
def injectAnswersLoop (tzEastMin : Int) (formFields : List DetectedFormField) :
    List GeneratedAnswer → Nat → Nat → RunState → Nat × Nat × RunState
  | [], successCount, totalAttempts, rs => (successCount, totalAttempts, rs)
  | answer :: rest, successCount, totalAttempts, rs =>
    match findMatchingField answer.fieldLabel formFields with
    | none => injectAnswersLoop tzEastMin formFields rest successCount totalAttempts rs
    | some matchingField =>
      let r := injectSingleField tzEastMin matchingField answer.answer rs
      if r.1 then
        injectAnswersLoop tzEastMin formFields rest (successCount + 1) (totalAttempts + 1)
          { r.2 with injectedFields := setInjected r.2.injectedFields matchingField.element answer.answer }
      else injectAnswersLoop tzEastMin formFields rest successCount (totalAttempts + 1) r.2

structure BatchResult where
  returned : Bool
  successCount : Nat
  totalAttempts : Nat
  state : RunState

/-- `injectAnswers` (lines 10-42): run the loop and return
`successCount > 0`. -/
def injectAnswers (tzEastMin : Int) (answers : List GeneratedAnswer)
    (formFields : List DetectedFormField) (rs : RunState) : BatchResult :=
  let r := injectAnswersLoop tzEastMin formFields answers 0 0 rs
  { returned := decide (r.1 > 0), successCount := r.1, totalAttempts := r.2.1, state := r.2.2 }

/-- One step of the rollback loop of `clearAllInjections` (lines 558-577):
inputs and textareas get `value = ''`, selects get `selectedIndex = 0`; the
stored value is ignored. -/
def clearStep (d : DomState) (p : Element × String) : DomState :=
  if p.1.tagName = "INPUT" then updateDom d p.1.eid (fun s => { s with value := "" })
  else if p.1.tagName = "TEXTAREA" then updateDom d p.1.eid (fun s => { s with value := "" })
  else if p.1.tagName = "SELECT" then updateDom d p.1.eid (fun s => { s with selectedIndex := 0 })
  else d

/-- `clearAllInjections` (lines 558-577). -/
def clearAllInjections (rs : RunState) : RunState :=
  { rs with
    dom := rs.injectedFields.foldl clearStep rs.dom
    injectedFields := [] }

/-! ### Concrete fixtures used by witnesses and evaluation theorems -/

def emptyDom : DomState := fun _ => {}

def initialRunState : RunState := { dom := emptyDom }

/-- A plain interactable text input. -/
def textElem : Element := { eid := 1 }

def textField : DetectedFormField := { element := textElem, label := "Full Name", type := "text" }

def nameAnswer : GeneratedAnswer := { fieldLabel := "Full Name", answer := "Jane" }

/-- A text input declaring `maxLength = 10`. -/
def cappedElem : Element := { eid := 4, maxLengthProp := 10 }

/-- A number input declaring `max = "100"`. -/
def boundedNumElem : Element := { eid := 3, htmlType := "number", maxAttr := "100" }

/-- An input and a select for exercising the rollback. -/
def rbInputElem : Element := { eid := 1 }

def rbSelectElem : Element :=
  { eid := 2, tagName := "SELECT", htmlType := "select-one",
    options := [⟨"Choose", ""⟩, ⟨"Red", "r"⟩] }

def rbState : RunState :=
  { dom := fun _ => { value := "previous", selectedIndex := 1 }
    injectedFields := [(rbInputElem, "stored input value"), (rbSelectElem, "stored select value")] }

/-! ## Theorems -/

/-- C4: for text-category and textarea fields, injection always succeeds;
with a declared positive `maxLength` and longer content the written value is
exactly the first `maxLength` characters, otherwise the content is written
verbatim. -/
theorem injectText_respects_maxLength (e : Element) (content : String) (d : DomState) :
    ((injectTextInput e content d).1 = true ∧ (injectTextarea e content d).1 = true)
    ∧ (e.maxLengthProp > 0 → (content.length : Int) > e.maxLengthProp →
        ((injectTextInput e content d).2 e.eid).value = content.take e.maxLengthProp.toNat ∧
        ((injectTextarea e content d).2 e.eid).value = content.take e.maxLengthProp.toNat)
    ∧ (¬(e.maxLengthProp > 0 ∧ (content.length : Int) > e.maxLengthProp) →
        ((injectTextInput e content d).2 e.eid).value = content ∧
        ((injectTextarea e content d).2 e.eid).value = content) := by
  refine ⟨⟨rfl, rfl⟩, ?_, ?_⟩
  · intro h1 h2
    simp [injectTextInput, injectTextarea, updateDom, h1, h2]
  · intro h
    simp only [injectTextInput, injectTextarea, updateDom, if_neg h, if_pos rfl]
    exact ⟨rfl, rfl⟩

/-- Witness for C4: `maxLength = 10`, content of length 20: the final value is
the first 10 characters, and its length is exactly 10. -/
theorem injectText_respects_maxLength_witness :
    cappedElem.maxLengthProp > 0 ∧ ((("abcdefghijklmnopqrst" : String).length : Int) > cappedElem.maxLengthProp) ∧
    ((injectTextInput cappedElem "abcdefghijklmnopqrst" emptyDom).2 cappedElem.eid).value = "abcdefghij" ∧
    (((injectTextInput cappedElem "abcdefghijklmnopqrst" emptyDom).2 cappedElem.eid).value).length = 10 := by
  have h := (injectText_respects_maxLength cappedElem "abcdefghijklmnopqrst" emptyDom).2.1
    (by decide) (by decide)
  refine ⟨by decide, by decide, ?_, ?_⟩
  · rw [h.1]
    decide
  · rw [h.1]
    decide

/-- C7: checkbox injection always succeeds, and the checkbox ends checked iff
the trimmed, lowercased content is one of the fixed affirmative vocabulary. -/
theorem injectCheckbox_affirmative (e : Element) (content : String) (d : DomState) :
    (injectCheckbox e content d).1 = true ∧
    (((injectCheckbox e content d).2 e.eid).checked = true ↔
      jsTrim (jsToLower content) ∈ affirmativeWords) := by
  constructor
  · rfl
  · simp [injectCheckbox, updateDom]

/-- Self-check of the spec's checkbox examples: answer "Yes" leaves the box
checked, answer "No" leaves it unchecked. -/
theorem injectCheckbox_yes_no :
    ((injectCheckbox textElem "Yes" emptyDom).2 textElem.eid).checked = true ∧
    ((injectCheckbox textElem "No" emptyDom).2 textElem.eid).checked = false := by
  decide

/-- C5 (evaluation at the failing input): with the host timezone 9 hours east
of UTC (e.g. Tokyo, offset +540 minutes), the answer "on 5 March 2024" is
written as "2024-03-04" — the previous calendar day — because `new Date`
parses to local midnight while `toISOString` renders in UTC; at or west of
UTC the written value is "2024-03-05" as the spec states. -/
theorem parseDate_shifts_day_east_of_utc :
    parseDate 540 "on 5 March 2024" = some "2024-03-04" ∧
    parseDate 0 "on 5 March 2024" = some "2024-03-05" ∧
    parseDate (-300) "on 5 March 2024" = some "2024-03-05" := by
  refine ⟨?_, ?_, ?_⟩ <;> rfl

/-- The number token does not reach the specified minimum. -/
def belowDeclaredMin (e : Element) (q : ℚ) : Prop :=
  e.minAttr ≠ "" ∧ ∃ m, jsParseFloat e.minAttr = some m ∧ q < m

/-- The number token exceeds the specified maximum. -/
def aboveDeclaredMax (e : Element) (q : ℚ) : Prop :=
  e.maxAttr ≠ "" ∧ ∃ m, jsParseFloat e.maxAttr = some m ∧ q > m

theorem ltParsed_iff (q : ℚ) (attr : String) :
    ltParsed q attr = true ↔ ∃ m, jsParseFloat attr = some m ∧ q < m := by
  unfold ltParsed
  cases h : jsParseFloat attr <;> simp [h]

theorem gtParsed_iff (q : ℚ) (attr : String) :
    gtParsed q attr = true ↔ ∃ m, jsParseFloat attr = some m ∧ q > m := by
  unfold gtParsed
  cases h : jsParseFloat attr <;> simp [h]

/-- C6: number injection extracts the first `\d+(\.\d+)?` token; with no token
it fails; with a token violating a declared parseable `min`/`max` bound it
fails leaving the state unchanged; otherwise it writes the number's string
form. -/
theorem injectNumber_range_checked (e : Element) (content : String) (d : DomState) :
    (extractNumberToken content = none → injectNumber e content d = (false, d)) ∧
    (∀ tok, extractNumberToken content = some tok →
      ((belowDeclaredMin e (decTokenValue tok) ∨ aboveDeclaredMax e (decTokenValue tok)) →
        injectNumber e content d = (false, d)) ∧
      (¬belowDeclaredMin e (decTokenValue tok) → ¬aboveDeclaredMax e (decTokenValue tok) →
        injectNumber e content d =
          (true, updateDom d e.eid (fun s => { s with value := canonDecimalToken tok })))) := by
  constructor
  · intro h
    simp [injectNumber, h]
  · intro tok htok
    have hmin : (e.minAttr ≠ "" ∧ ltParsed (decTokenValue tok) e.minAttr) ↔
        belowDeclaredMin e (decTokenValue tok) := by
      unfold belowDeclaredMin
      rw [← ltParsed_iff]
    have hmax : (e.maxAttr ≠ "" ∧ gtParsed (decTokenValue tok) e.maxAttr) ↔
        aboveDeclaredMax e (decTokenValue tok) := by
      unfold aboveDeclaredMax
      rw [← gtParsed_iff]
    constructor
    · intro hrange
      by_cases hb : (e.minAttr ≠ "" ∧ ltParsed (decTokenValue tok) e.minAttr)
      · simp [injectNumber, htok, hb]
      · have ha : (e.maxAttr ≠ "" ∧ gtParsed (decTokenValue tok) e.maxAttr) := by
          rcases hrange with h | h
          · exact absurd (hmin.mpr h) hb
          · exact hmax.mpr h
        simp [injectNumber, htok, hb, ha]
    · intro hnb hna
      have hb : ¬(e.minAttr ≠ "" ∧ ltParsed (decTokenValue tok) e.minAttr) := fun h => hnb (hmin.mp h)
      have ha : ¬(e.maxAttr ≠ "" ∧ gtParsed (decTokenValue tok) e.maxAttr) := fun h => hna (hmax.mp h)
      simp [injectNumber, htok, hb, ha]

/-- Witness for C6: `max = "100"` and answer "150 items" — injection fails and
the state is unchanged; answer "42 items" is in range and writes "42". -/
theorem injectNumber_range_checked_witness :
    extractNumberToken "150 items" = some "150" ∧
    injectNumber boundedNumElem "150 items" emptyDom = (false, emptyDom) ∧
    injectNumber boundedNumElem "42 items" emptyDom =
      (true, updateDom emptyDom boundedNumElem.eid (fun s => { s with value := "42" })) := by
  refine ⟨by decide, ?_, ?_⟩
  · exact ((injectNumber_range_checked boundedNumElem "150 items" emptyDom).2 "150"
      (by decide)).1 (Or.inr ⟨by decide, 100, by decide, by decide⟩)
  · exact ((injectNumber_range_checked boundedNumElem "42 items" emptyDom).2 "42"
      (by decide)).2
      (fun h => by exact absurd h.1 (by decide))
      (fun h => by
        rcases h.2 with ⟨m, hm, hgt⟩
        rw [show jsParseFloat boundedNumElem.maxAttr = some 100 from by decide] at hm
        cases hm
        exact absurd hgt (by decide))

/-! ### Scanner exclusion lemmas (for C2 and C8) -/

theorem mem_of_mem_filterDedupAux :
    ∀ (l : List DetectedFormField) (seen : List Nat) (f : DetectedFormField),
      f ∈ filterDedupAux seen l →
      f ∈ l ∧ (["submit", "button", "reset", "image"] : List String).contains (jsToLower f.type) = false := by
  intro l
  induction l with
  | nil =>
    intro seen f h
    simp [filterDedupAux] at h
  | cons g rest ih =>
    intro seen f h
    unfold filterDedupAux at h
    split_ifs at h with h1 h2
    · obtain ⟨hm, hc⟩ := ih _ _ h
      exact ⟨List.mem_cons_of_mem _ hm, hc⟩
    · obtain ⟨hm, hc⟩ := ih _ _ h
      exact ⟨List.mem_cons_of_mem _ hm, hc⟩
    · rcases List.mem_cons.mp h with rfl | h'
      · exact ⟨List.mem_cons_self _ _, Bool.eq_false_iff.mpr h2⟩
      · obtain ⟨hm, hc⟩ := ih _ _ h'
        exact ⟨List.mem_cons_of_mem _ hm, hc⟩

theorem nodup_filterDedupAux :
    ∀ (l : List DetectedFormField) (seen : List Nat),
      ((filterDedupAux seen l).map (fun f => f.element.eid)).Nodup ∧
      (∀ i ∈ (filterDedupAux seen l).map (fun f => f.element.eid), i ∉ seen) := by
  intro l
  induction l with
  | nil => intro seen; simp [filterDedupAux]
  | cons g rest ih =>
    intro seen
    unfold filterDedupAux
    split_ifs with h1 h2
    · exact ih seen
    · exact ih seen
    · obtain ⟨hnd, hni⟩ := ih (g.element.eid :: seen)
      constructor
      · simp only [List.map_cons, List.nodup_cons]
        exact ⟨fun hmem => (hni _ hmem) (List.mem_cons_self _ _), hnd⟩
      · intro i hi
        simp only [List.map_cons, List.mem_cons] at hi
        rcases hi with rfl | hi
        · intro hmem
          exact h1 (by simpa using hmem)
        · intro hmem
          exact (hni i hi) (List.mem_cons_of_mem _ hmem)

theorem mem_processFieldElement {throws : Element → Bool} {e : Element} {f : DetectedFormField}
    (h : f ∈ processFieldElement throws e) :
    shouldSkipField e = false ∧ extractFieldInfo throws e = some f := by
  unfold processFieldElement at h
  by_cases h1 : shouldSkipField e = true
  · rw [if_pos h1] at h
    simp at h
  · rw [if_neg h1] at h
    cases hx : extractFieldInfo throws e with
    | none => rw [hx] at h; simp at h
    | some fi =>
      rw [hx] at h
      simp only [List.mem_singleton] at h
      exact ⟨Bool.eq_false_iff.mpr h1, (congrArg some h).symm⟩

theorem extractFieldInfo_some {throws : Element → Bool} {e : Element} {f : DetectedFormField}
    (h : extractFieldInfo throws e = some f) :
    throws e = false ∧ f.element = e ∧ f.type = getFieldType e := by
  unfold extractFieldInfo at h
  by_cases h1 : throws e = true
  · rw [if_pos h1] at h
    cases h
  · rw [if_neg h1] at h
    injection h with h2
    subst h2
    exact ⟨Bool.eq_false_iff.mpr h1, rfl, rfl⟩

theorem shouldSkipField_false_parts {e : Element} (h : shouldSkipField e = false) :
    e.htmlType ≠ "hidden" ∧ e.disabled = false ∧
    (∀ s ∈ skipNames,
      strIncludes (jsToLower e.nameAttr) s = false ∧
      strIncludes (jsToLower e.idAttr) s = false) := by
  unfold shouldSkipField at h
  split_ifs at h with h1 h2 h3 h4 h5
  refine ⟨h1, Bool.eq_false_iff.mpr h2, ?_⟩
  intro s hs
  simp only [List.any_eq_true, not_exists, not_and, Bool.or_eq_true, not_or,
    Bool.not_eq_true] at h4
  exact ⟨(h4 s hs).1, (h4 s hs).2⟩

/-- C2: `scan()` never returns a record for an element with type "hidden",
disabled, or with a name/id containing a denylist token (case-insensitively);
the catalog has pairwise distinct element identities, and no record is
classified submit/button/reset/image. -/
theorem scan_excludes_system_fields (throws : Element → Bool) (doc : List Element) :
    (∀ f ∈ detectFields throws doc,
      f.element.htmlType ≠ "hidden" ∧ f.element.disabled = false ∧
      (∀ s ∈ skipNames,
        strIncludes (jsToLower f.element.nameAttr) s = false ∧
        strIncludes (jsToLower f.element.idAttr) s = false) ∧
      f.type ∉ (["submit", "button", "reset", "image"] : List String)) ∧
    ((detectFields throws doc).map (fun f => f.element.eid)).Nodup := by
  constructor
  · intro f hf
    unfold detectFields filterAndDeduplicateFields at hf
    obtain ⟨hm, hc⟩ := mem_of_mem_filterDedupAux _ _ _ hf
    obtain ⟨e, he, hpe⟩ := List.mem_flatMap.mp hm
    obtain ⟨hskip, hx⟩ := mem_processFieldElement hpe
    obtain ⟨-, helem, -⟩ := extractFieldInfo_some hx
    obtain ⟨hh, hd, hden⟩ := shouldSkipField_false_parts hskip
    subst helem
    refine ⟨hh, hd, hden, ?_⟩
    intro hin
    simp only [List.mem_cons, List.not_mem_nil, or_false] at hin
    rcases hin with h' | h' | h' | h' <;>
      (rw [h'] at hc; exact absurd hc (by decide))
  · unfold detectFields filterAndDeduplicateFields
    exact (nodup_filterDedupAux _ _).1

/-- Witness for C2 at a concrete one-element document. -/
theorem scan_excludes_system_fields_witness :
    (detectFields (fun _ => false) [{ eid := 1, nameAttr := "full_name" }]).length = 1 ∧
    (({ element := { eid := 1, nameAttr := "full_name" }, label := "Full name", type := "text",
        required := false, placeholder := none, maxLength := none } : DetectedFormField).element.htmlType ≠ "hidden") ∧
    ((detectFields (fun _ => false) [{ eid := 1, nameAttr := "full_name" }]).map
      (fun f => f.element.eid)).Nodup := by
  refine ⟨by decide, ?_, (scan_excludes_system_fields (fun _ => false) _).2⟩
  exact ((scan_excludes_system_fields (fun _ => false)
    [{ eid := 1, nameAttr := "full_name" }]).1 _ (by decide)).1

theorem processFieldElement_of_throws {throws : Element → Bool} {e : Element}
    (h : throws e = true) : processFieldElement throws e = [] := by
  unfold processFieldElement
  split_ifs with h1
  · rfl
  · unfold extractFieldInfo
    rw [if_pos h]

theorem processFieldElement_congr {t1 t2 : Element → Bool} {e : Element} (h : t1 e = t2 e) :
    processFieldElement t1 e = processFieldElement t2 e := by
  unfold processFieldElement extractFieldInfo
  rw [h]

/-- C8: an element whose metadata extraction throws contributes nothing, and
the rest of the scan is unaffected: scanning with a set of throwing elements
equals scanning the document with those elements removed.  (The embedded
`detectFields` is a total function: the thrown error is caught inside
`extractFieldInfo` and never escapes, so the scan as a whole cannot fail.) -/
theorem scan_skips_throwing_elements (throws : Element → Bool) (doc : List Element) :
    detectFields throws doc =
      detectFields (fun _ => false) (doc.filter (fun e => !throws e)) := by
  unfold detectFields
  congr 1
  induction doc with
  | nil => rfl
  | cons e rest ih =>
    rw [List.flatMap_cons, List.filter_cons]
    by_cases h : throws e = true
    · rw [processFieldElement_of_throws h, h]
      simpa using ih
    · have hb : throws e = false := Bool.eq_false_iff.mpr h
      rw [hb]
      simp only [Bool.not_false, if_pos]
      rw [List.flatMap_cons, @processFieldElement_congr throws (fun _ => false) e hb, ih]

/-! ### Rollback lemmas (for C10) -/

theorem clearStep_ne {d : DomState} {p : Element × String} {i : Nat} (h : p.1.eid ≠ i) :
    clearStep d p i = d i := by
  unfold clearStep
  split_ifs <;> first
    | rfl
    | (unfold updateDom; rw [if_neg (fun hh => h hh.symm)])

theorem foldl_clearStep_ne :
    ∀ (l : List (Element × String)) (d : DomState) (i : Nat),
      (∀ p ∈ l, p.1.eid ≠ i) → l.foldl clearStep d i = d i := by
  intro l
  induction l with
  | nil => intro d i _; rfl
  | cons q rest ih =>
    intro d i h
    rw [List.foldl_cons, ih _ _ (fun p hp => h p (List.mem_cons_of_mem _ hp))]
    exact clearStep_ne (h q (List.mem_cons_self _ _))

theorem foldl_clearStep_mem :
    ∀ (l : List (Element × String)) (d : DomState) (p : Element × String),
      p ∈ l → ((l.map (fun q => q.1.eid)).Nodup) →
      ((p.1.tagName = "INPUT" ∨ p.1.tagName = "TEXTAREA") →
        (l.foldl clearStep d p.1.eid).value = "") ∧
      (p.1.tagName = "SELECT" → (l.foldl clearStep d p.1.eid).selectedIndex = 0) := by
  intro l
  induction l with
  | nil => intro d p h; cases h
  | cons q rest ih =>
    intro d p hp hnd
    simp only [List.map_cons, List.nodup_cons] at hnd
    rcases List.mem_cons.mp hp with rfl | hp'
    · have hrest : ∀ r ∈ rest, r.1.eid ≠ p.1.eid := by
        intro r hr heq
        exact hnd.1 (heq ▸ List.mem_map_of_mem _ hr)
      rw [List.foldl_cons, foldl_clearStep_ne rest _ _ hrest]
      constructor
      · rintro (ht | ht) <;> simp [clearStep, updateDom, ht]
      · intro ht
        simp [clearStep, updateDom, ht]
    · exact ih (clearStep d q) p hp' hnd.2

theorem foldl_clearStep_congr :
    ∀ (l₁ l₂ : List (Element × String)) (d : DomState),
      l₁.map Prod.fst = l₂.map Prod.fst → l₁.foldl clearStep d = l₂.foldl clearStep d := by
  intro l₁
  induction l₁ with
  | nil =>
    intro l₂ d h
    cases l₂ with
    | nil => rfl
    | cons q₂ rest₂ => simp at h
  | cons q rest ih =>
    intro l₂ d h
    cases l₂ with
    | nil => simp at h
    | cons q₂ rest₂ =>
      simp only [List.map_cons, List.cons.injEq] at h
      rw [List.foldl_cons, List.foldl_cons]
      have hstep : clearStep d q = clearStep d q₂ := by
        unfold clearStep
        rw [h.1]
      rw [hstep]
      exact ih rest₂ _ h.2

/-- C10: rollback empties the registry and, for every registered element,
writes the fixed reset value (`""` for inputs/textareas, selected index 0 for
selects) — and the outcome depends only on which elements are registered,
never on the stored injected values. -/
theorem clearAllInjections_resets (rs : RunState) :
    (clearAllInjections rs).injectedFields = [] ∧
    (∀ p ∈ rs.injectedFields, ((rs.injectedFields.map (fun q => q.1.eid)).Nodup) →
      ((p.1.tagName = "INPUT" ∨ p.1.tagName = "TEXTAREA") →
        ((clearAllInjections rs).dom p.1.eid).value = "") ∧
      (p.1.tagName = "SELECT" →
        ((clearAllInjections rs).dom p.1.eid).selectedIndex = 0)) ∧
    (∀ rs₂ : RunState, rs.dom = rs₂.dom →
      rs.injectedFields.map Prod.fst = rs₂.injectedFields.map Prod.fst →
      (clearAllInjections rs).dom = (clearAllInjections rs₂).dom) := by
  refine ⟨rfl, ?_, ?_⟩
  · intro p hp hnd
    exact foldl_clearStep_mem _ _ _ hp hnd
  · intro rs₂ hd hm
    show rs.injectedFields.foldl clearStep rs.dom = rs₂.injectedFields.foldl clearStep rs₂.dom
    rw [hd]
    exact foldl_clearStep_congr _ _ _ hm

/-- Witness for C10: a registry holding an input (previous value "previous")
and a select (previous index 1): afterwards value `""`, index 0, registry
empty. -/
theorem clearAllInjections_resets_witness :
    ((rbInputElem, "stored input value") ∈ rbState.injectedFields) ∧
    ((rbState.injectedFields.map (fun q => q.1.eid)).Nodup) ∧
    ((clearAllInjections rbState).dom rbInputElem.eid).value = "" ∧
    ((clearAllInjections rbState).dom rbSelectElem.eid).selectedIndex = 0 ∧
    (clearAllInjections rbState).injectedFields = [] := by
  refine ⟨by decide, by decide, ?_, ?_, (clearAllInjections_resets rbState).1⟩
  · exact ((clearAllInjections_resets rbState).2.1 (rbInputElem, "stored input value")
      (by decide) (by decide)).1 (Or.inl (by decide))
  · exact ((clearAllInjections_resets rbState).2.1 (rbSelectElem, "stored select value")
      (by decide) (by decide)).2 (by decide)

/-! ### Batch contract lemmas (for C1)

Whether a single write succeeds depends only on the field, the content and
the host timezone — never on the current DOM state (every failing writer
returns its input state, and every success test reads only element data).
This lets the batch success count be characterized against the initial
state. -/

theorem injectTextInput_fst (e : Element) (c : String) (d : DomState) :
    (injectTextInput e c d).1 = true := rfl

theorem injectTextarea_fst (e : Element) (c : String) (d : DomState) :
    (injectTextarea e c d).1 = true := rfl

theorem injectCheckbox_fst (e : Element) (c : String) (d : DomState) :
    (injectCheckbox e c d).1 = true := rfl

theorem injectSelect_fst_congr (e : Element) (c : String) (d d' : DomState) :
    (injectSelect e c d).1 = (injectSelect e c d').1 := by
  simp only [injectSelect]
  cases hx : e.options.findIdx? (selectOptionMatches (jsTrim (jsToLower c))) <;> rfl

theorem injectRadio_fst_congr (e : Element) (c : String) (d d' : DomState) :
    (injectRadio e c d).1 = (injectRadio e c d').1 := by
  simp only [injectRadio]
  cases hx : e.radioGroup.find? (radioCandMatches (jsTrim (jsToLower c))) <;> rfl

theorem injectDate_fst_congr (tz : Int) (e : Element) (c : String) (d d' : DomState) :
    (injectDate tz e c d).1 = (injectDate tz e c d').1 := by
  simp only [injectDate]
  cases hx : parseDate tz c <;> rfl

theorem injectNumber_fst_congr (e : Element) (c : String) (d d' : DomState) :
    (injectNumber e c d).1 = (injectNumber e c d').1 := by
  simp only [injectNumber]
  cases hx : extractNumberToken c with
  | none => rfl
  | some tok =>
    dsimp only
    split_ifs <;> rfl

theorem dispatchInject_fst_congr (tz : Int) (f : DetectedFormField) (c : String)
    (d d' : DomState) : (dispatchInject tz f c d).1 = (dispatchInject tz f c d').1 := by
  unfold dispatchInject
  split_ifs <;> first
    | rfl
    | apply injectSelect_fst_congr
    | apply injectRadio_fst_congr
    | apply injectDate_fst_congr
    | apply injectNumber_fst_congr

theorem injectSingleField_fst (tz : Int) (f : DetectedFormField) (c : String) (rs : RunState) :
    (injectSingleField tz f c rs).1 =
      (isElementInteractable f.element && (dispatchInject tz f c rs.dom).1) := by
  unfold injectSingleField
  cases hi : isElementInteractable f.element <;>
    cases hd : (dispatchInject tz f c rs.dom).1 <;>
    simp [hi, hd]

theorem injectSingleField_fst_congr (tz : Int) (f : DetectedFormField) (c : String)
    (rs rs' : RunState) : (injectSingleField tz f c rs).1 = (injectSingleField tz f c rs').1 := by
  rw [injectSingleField_fst, injectSingleField_fst, dispatchInject_fst_congr tz f c rs.dom rs'.dom]

theorem injectAnswersLoop_attempts (tz : Int) (fields : List DetectedFormField) :
    ∀ (answers : List GeneratedAnswer) (s t : Nat) (rs : RunState),
      (injectAnswersLoop tz fields answers s t rs).2.1 =
        t + (answers.filter (fun a => (findMatchingField a.fieldLabel fields).isSome)).length := by
  intro answers
  induction answers with
  | nil => intro s t rs; simp [injectAnswersLoop]
  | cons a rest ih =>
    intro s t rs
    unfold injectAnswersLoop
    cases hm : findMatchingField a.fieldLabel fields with
    | none =>
      simp only [hm]
      rw [ih, List.filter_cons]
      simp [hm]
    | some mf =>
      simp only [hm]
      split <;>
        (rw [ih, List.filter_cons]; simp [hm]; omega)

theorem injectAnswersLoop_successes (tz : Int) (fields : List DetectedFormField) (rs₀ : RunState) :
    ∀ (answers : List GeneratedAnswer) (s t : Nat) (rs : RunState),
      (injectAnswersLoop tz fields answers s t rs).1 =
        s + (answers.filter (fun a =>
          match findMatchingField a.fieldLabel fields with
          | some mf => (injectSingleField tz mf a.answer rs₀).1
          | none => false)).length := by
  intro answers
  induction answers with
  | nil => intro s t rs; simp [injectAnswersLoop]
  | cons a rest ih =>
    intro s t rs
    unfold injectAnswersLoop
    cases hm : findMatchingField a.fieldLabel fields with
    | none =>
      simp only [hm]
      rw [ih, List.filter_cons]
      simp [hm]
    | some mf =>
      simp only [hm]
      cases hr : (injectSingleField tz mf a.answer rs).1 with
      | false =>
        have hr₀ : (injectSingleField tz mf a.answer rs₀).1 = false := by
          rw [injectSingleField_fst_congr tz mf a.answer rs₀ rs, hr]
        rw [if_neg (by simp)]
        rw [ih, List.filter_cons]
        simp [hm, hr₀]
      | true =>
        have hr₀ : (injectSingleField tz mf a.answer rs₀).1 = true := by
          rw [injectSingleField_fst_congr tz mf a.answer rs₀ rs, hr]
        rw [if_pos rfl]
        rw [ih, List.filter_cons]
        simp [hm, hr₀]
        omega

theorem injectAnswersLoop_le (tz : Int) (fields : List DetectedFormField) :
    ∀ (answers : List GeneratedAnswer) (s t : Nat) (rs : RunState), s ≤ t →
      (injectAnswersLoop tz fields answers s t rs).1 ≤
        (injectAnswersLoop tz fields answers s t rs).2.1 := by
  intro answers
  induction answers with
  | nil => intro s t rs h; exact h
  | cons a rest ih =>
    intro s t rs h
    unfold injectAnswersLoop
    cases hm : findMatchingField a.fieldLabel fields with
    | none =>
      simp only [hm]
      exact ih _ _ _ h
    | some mf =>
      simp only [hm]
      split
      · exact ih _ _ _ (by omega)
      · exact ih _ _ _ (by omega)

/-- C1: the batch returns `true` iff at least one write succeeded; every
matched answer counts toward `totalAttempts` whether or not its write
succeeds; an answer the Matcher cannot place is dropped and does not count;
`successCount` counts exactly the matched answers whose write succeeds. -/
theorem injectAnswers_batch_contract (tz : Int) (answers : List GeneratedAnswer)
    (fields : List DetectedFormField) (rs : RunState) :
    ((injectAnswers tz answers fields rs).returned = true ↔
      0 < (injectAnswers tz answers fields rs).successCount) ∧
    (injectAnswers tz answers fields rs).totalAttempts =
      (answers.filter (fun a => (findMatchingField a.fieldLabel fields).isSome)).length ∧
    (injectAnswers tz answers fields rs).successCount =
      (answers.filter (fun a =>
        match findMatchingField a.fieldLabel fields with
        | some mf => (injectSingleField tz mf a.answer rs).1
        | none => false)).length ∧
    (injectAnswers tz answers fields rs).successCount ≤
      (injectAnswers tz answers fields rs).totalAttempts := by
  refine ⟨?_, ?_, ?_, ?_⟩
  · simp [injectAnswers]
  · show (injectAnswersLoop tz fields answers 0 0 rs).2.1 = _
    simpa using injectAnswersLoop_attempts tz fields answers 0 0 rs
  · show (injectAnswersLoop tz fields answers 0 0 rs).1 = _
    simpa using injectAnswersLoop_successes tz fields rs answers 0 0 rs
  · exact injectAnswersLoop_le tz fields answers 0 0 rs (Nat.le_refl 0)

/-! ### Matcher waterfall lemmas (for C3) -/

theorem bestFuzzyScore_cons (aks : List String) (f : DetectedFormField)
    (rest : List DetectedFormField) :
    bestFuzzyScore aks (f :: rest) = max (fieldScore aks f) (bestFuzzyScore aks rest) := rfl

/-- The source's best-score fold equals the spec's "first candidate attaining
the maximum score, provided it beats both the running best and 0.5". -/
theorem fuzzyBest_eq_spec (aks : List String) :
    ∀ (fields : List DetectedFormField) (b : Option DetectedFormField) (s : ℚ),
      fuzzyBest aks fields b s =
        if bestFuzzyScore aks fields > s ∧ bestFuzzyScore aks fields > 1/2 then
          fields.find? (fun f => fieldScore aks f = bestFuzzyScore aks fields)
        else b := by
  intro fields
  induction fields with
  | nil =>
    intro b s
    rw [if_neg]
    · rfl
    · rintro ⟨-, h2⟩
      norm_num [bestFuzzyScore] at h2
  | cons f rest ih =>
    intro b s
    show (if fieldScore aks f > s ∧ fieldScore aks f > 1/2 then
        fuzzyBest aks rest (some f) (fieldScore aks f)
      else fuzzyBest aks rest b s) = _
    by_cases hc : fieldScore aks f > s ∧ fieldScore aks f > 1/2
    · rw [if_pos hc, ih]
      rcases le_or_lt (bestFuzzyScore aks rest) (fieldScore aks f) with hle | hlt
      · have hM : bestFuzzyScore aks (f :: rest) = fieldScore aks f := by
          rw [bestFuzzyScore_cons]
          exact max_eq_left hle
        rw [if_neg (fun hcontra => absurd hcontra.1 (not_lt.mpr hle)), hM, if_pos hc,
          List.find?_cons_of_pos _ (by simp)]
      · have hM : bestFuzzyScore aks (f :: rest) = bestFuzzyScore aks rest := by
          rw [bestFuzzyScore_cons]
          exact max_eq_right (le_of_lt hlt)
        have h12 : bestFuzzyScore aks rest > 1/2 := lt_trans hc.2 hlt
        rw [if_pos ⟨hlt, h12⟩, hM, if_pos ⟨lt_trans hc.1 hlt, h12⟩,
          List.find?_cons_of_neg _ (by simp [ne_of_lt hlt])]
    · rw [if_neg hc, ih]
      by_cases hr : bestFuzzyScore aks rest > s ∧ bestFuzzyScore aks rest > 1/2
      · have hsf : fieldScore aks f < bestFuzzyScore aks rest := by
          rcases not_and_or.mp hc with h | h
          · exact lt_of_le_of_lt (not_lt.mp h) hr.1
          · exact lt_of_le_of_lt (not_lt.mp h) hr.2
        have hM : bestFuzzyScore aks (f :: rest) = bestFuzzyScore aks rest := by
          rw [bestFuzzyScore_cons]
          exact max_eq_right (le_of_lt hsf)
        rw [if_pos hr, hM, if_pos hr, List.find?_cons_of_neg _ (by simp [ne_of_lt hsf])]
      · rw [if_neg hr, if_neg]
        rintro ⟨h1, h2⟩
        rw [bestFuzzyScore_cons] at h1 h2
        rcases max_cases (fieldScore aks f) (bestFuzzyScore aks rest) with ⟨hmax, -⟩ | ⟨hmax, -⟩
        · rw [hmax] at h1 h2
          exact hc ⟨h1, h2⟩
        · rw [hmax] at h1 h2
          exact hr ⟨h1, h2⟩

/-- C3: the matcher implements exactly the spec's ordered waterfall: first
exact normalized equality, else first containment either direction, else the
highest-scoring candidate by token overlap provided the score exceeds 0.5,
else no match (the answer is dropped, not an error). -/
theorem findMatchingField_matches_spec (answerLabel : String)
    (formFields : List DetectedFormField) :
    findMatchingField answerLabel formFields = findMatchingFieldSpec answerLabel formFields := by
  unfold findMatchingField findMatchingFieldSpec
  dsimp only
  cases h1 : formFields.find?
      (fun f => normalizeLabel f.label = normalizeLabel answerLabel) with
  | some f => rfl
  | none =>
    cases h2 : formFields.find? (fun f =>
        strIncludes (normalizeLabel f.label) (normalizeLabel answerLabel) ||
        strIncludes (normalizeLabel answerLabel) (normalizeLabel f.label)) with
    | some f => rfl
    | none =>
      show fuzzyBest (extractKeywords (normalizeLabel answerLabel)) formFields none 0 = _
      rw [fuzzyBest_eq_spec]
      by_cases hm :
          bestFuzzyScore (extractKeywords (normalizeLabel answerLabel)) formFields > 1/2
      · rw [if_pos ⟨lt_trans (by norm_num) hm, hm⟩, if_pos hm]
      · rw [if_neg (fun hcontra => hm hcontra.2), if_neg hm]

/-! ### Double-injection highlight evaluation (for C9) -/

/-- C9 (evaluation at the failing input): one interactable text field matched
by one answer, `injectAnswers` invoked twice back-to-back (both batches finish
inside the 2-second highlight window, so all highlight-removal timers fire
after both batches).  The field values agree with a single invocation, but the
second call captured the success highlight as the "original" style, so after
the timers fire the border stays `highlightBorder` forever, whereas a single
invocation restores `""` — the DOM states differ. -/
theorem double_injection_leaves_highlight :
    ((applyReverts (injectAnswers 0 [nameAnswer] [textField]
        (injectAnswers 0 [nameAnswer] [textField] initialRunState).state).state).dom 1).border
      = highlightBorder ∧
    ((applyReverts (injectAnswers 0 [nameAnswer] [textField] initialRunState).state).dom 1).border
      = "" ∧
    highlightBorder ≠ "" ∧
    ((applyReverts (injectAnswers 0 [nameAnswer] [textField]
        (injectAnswers 0 [nameAnswer] [textField] initialRunState).state).state).dom 1).value
      = ((applyReverts (injectAnswers 0 [nameAnswer] [textField] initialRunState).state).dom 1).value := by
  refine ⟨?_, ?_, ?_, ?_⟩ <;> decide

end Netherite
